import Mathlib

/-!
Shallow embedding of the browser-side widget layer of the autobids portal
(React components under `autobids-react`): the selection-state machine of
`TableLauncher`, the shared-modal lifecycle of `TableLauncherRow` /
`TaskListItem`, the accordion tree builder `genAccordion` / `genDirItem`,
and the render shapes relevant to the `mutable` flag and the job-log
control.  Each definition is translated from the corresponding JavaScript
source function; theorems settle the specification claims about them.
-/

namespace Autobids

/-- One row of `TableLauncher.props.rowInfo`: the fields read by
`TableLauncher` and `TableLauncherRow` (`id`, `fileName`, `date`,
`deleteUrl`, `renameUrl`). -/
structure RowInfo where
  id : String
  fileName : String
  date : Option String
  deleteUrl : String
  renameUrl : String
deriving DecidableEq, Repr

/-- The ids of the currently rendered rows: `rowInfo.map((row) => row.id)`. -/
def rowIds (rows : List RowInfo) : List String :=
  rows.map (fun row => row.id)

/-- `changeActiveId(id, isActive)` from `TableLauncher`: the state updater
passed to `setActiveIds`.  It copies the state; if the state includes `id`
and `isActive` is false it splices out the element at `state.indexOf(id)`;
else if the state does not include `id` and `isActive` is true it pushes
`id`; otherwise it returns the copy unchanged. -/
def changeActiveId (state : List String) (id : String) (isActive : Bool) :
    List String :=
  if state.contains id && !isActive then
    state.eraseIdx (state.indexOf id)
  else if !(state.contains id) && isActive then
    state ++ [id]
  else
    state

/-- `selectAll()` from `TableLauncher`: replaces the state with
`props.rowInfo.map((row) => row.id)`, ignoring the previous state. -/
def selectAll (rowInfo : List RowInfo) (_state : List String) : List String :=
  rowInfo.map (fun row => row.id)

/-- `deselectAll()` from `TableLauncher`: replaces the state with `[]`. -/
def deselectAll (_state : List String) : List String :=
  []

/-- Concrete three-row table used by the spec's select-all example. -/
def exampleRows : List RowInfo :=
  [ { id := "x", fileName := "x.tar", date := none,
      deleteUrl := "/delete/x", renameUrl := "/rename/x" },
    { id := "y", fileName := "y.tar", date := none,
      deleteUrl := "/delete/y", renameUrl := "/rename/y" },
    { id := "z", fileName := "z.tar", date := none,
      deleteUrl := "/delete/z", renameUrl := "/rename/z" } ]

/-- The behaviour the toggle claim ascribes to `changeActiveId` at one
state and one id: inserts when told true and absent, removes when told
false and present, otherwise leaves the state unchanged, is idempotent,
and satisfies the concrete empty-state scenario. -/
def ToggleSpec (s : List String) (id : String) : Prop :=
  (id ∉ s → changeActiveId s id true = s ++ [id]) ∧
  (id ∈ s → changeActiveId s id false = s.erase id ∧
    id ∉ changeActiveId s id false) ∧
  (id ∈ s → changeActiveId s id true = s) ∧
  (id ∉ s → changeActiveId s id false = s) ∧
  (∀ b, changeActiveId (changeActiveId s id b) id b = changeActiveId s id b) ∧
  changeActiveId [] "a" true = ["a"] ∧
  changeActiveId (changeActiveId [] "a" true) "a" true = ["a"] ∧
  changeActiveId (changeActiveId (changeActiveId [] "a" true) "a" true)
    "a" false = []

lemma changeActiveId_of_mem_false {s : List String} {id : String}
    (h : id ∈ s) : changeActiveId s id false = s.erase id := by
  simp [changeActiveId, h]

lemma changeActiveId_of_not_mem_true {s : List String} {id : String}
    (h : id ∉ s) : changeActiveId s id true = s ++ [id] := by
  simp [changeActiveId, h]

lemma changeActiveId_of_mem_true {s : List String} {id : String}
    (h : id ∈ s) : changeActiveId s id true = s := by
  simp [changeActiveId, h]

lemma changeActiveId_of_not_mem_false {s : List String} {id : String}
    (h : id ∉ s) : changeActiveId s id false = s := by
  simp [changeActiveId, h]

lemma changeActiveId_idem (s : List String) (id : String) (b : Bool)
    (hnd : s.Nodup) :
    changeActiveId (changeActiveId s id b) id b = changeActiveId s id b := by
  cases b with
  | true =>
    by_cases h : id ∈ s
    · rw [changeActiveId_of_mem_true h, changeActiveId_of_mem_true h]
    · rw [changeActiveId_of_not_mem_true h]
      exact changeActiveId_of_mem_true (by simp)
  | false =>
    by_cases h : id ∈ s
    · rw [changeActiveId_of_mem_false h]
      exact changeActiveId_of_not_mem_false hnd.not_mem_erase
    · rw [changeActiveId_of_not_mem_false h,
        changeActiveId_of_not_mem_false h]

/-- C1: `changeActiveId` over a duplicate-free selection state inserts the
id when told true and it is absent, removes it when told false and it is
present, is otherwise a no-op, is idempotent under repeated identical
calls, and from the empty state realises the toggle("a", true) /
toggle("a", true) / toggle("a", false) scenario. -/
theorem changeActiveId_toggle_spec (s : List String) (id : String)
    (hnd : s.Nodup) : ToggleSpec s id := by
  refine ⟨fun h => changeActiveId_of_not_mem_true h,
    fun h => ⟨changeActiveId_of_mem_false h, ?_⟩,
    fun h => changeActiveId_of_mem_true h,
    fun h => changeActiveId_of_not_mem_false h,
    fun b => changeActiveId_idem s id b hnd, by decide, by decide, by decide⟩
  rw [changeActiveId_of_mem_false h]
  exact hnd.not_mem_erase

/-- Witness for C1: the toggle specification instantiated at the concrete
duplicate-free state `["b"]` and the id `"a"`. -/
theorem changeActiveId_toggle_spec_witness :
    (["b"] : List String).Nodup ∧ ToggleSpec ["b"] "a" :=
  ⟨by decide, changeActiveId_toggle_spec ["b"] "a" (by decide)⟩

/-- C10: a toggle of id `x` leaves the membership of every other id `y`
unchanged, whatever the state and the desired membership value. -/
theorem changeActiveId_frame (s : List String) (x y : String) (b : Bool)
    (hne : y ≠ x) : y ∈ changeActiveId s x b ↔ y ∈ s := by
  cases b with
  | true =>
    by_cases h : x ∈ s
    · rw [changeActiveId_of_mem_true h]
    · rw [changeActiveId_of_not_mem_true h]
      simp [hne]
  | false =>
    by_cases h : x ∈ s
    · rw [changeActiveId_of_mem_false h]
      exact List.mem_erase_of_ne hne
    · rw [changeActiveId_of_not_mem_false h]

/-- Witness for C10: toggling `"a"` on from the state `["b"]` does not
change the membership of `"b"`. -/
theorem changeActiveId_frame_witness :
    ("b" : String) ≠ "a" ∧
      (("b" : String) ∈ changeActiveId ["b"] "a" true ↔
        ("b" : String) ∈ (["b"] : List String)) :=
  ⟨by decide, changeActiveId_frame ["b"] "a" "b" true (by decide)⟩

/-- C3: `selectAll` replaces any prior state with exactly the ids of the
currently rendered rows (membership included), `deselectAll` always yields
the empty state, and over the three example rows `x`, `y`, `z` the result
is exactly `["x", "y", "z"]`. -/
theorem selectAll_spec (rows : List RowInfo) (prior : List String) :
    selectAll rows prior = rowIds rows ∧
    (∀ x, x ∈ selectAll rows prior ↔ x ∈ rowIds rows) ∧
    deselectAll prior = [] ∧
    selectAll exampleRows prior = ["x", "y", "z"] ∧
    (∀ x, x ∉ deselectAll prior) := by
  refine ⟨rfl, fun x => Iff.rfl, rfl, rfl, fun x => ?_⟩
  simp [deselectAll]

/-- Selection states reachable through the UI: start empty, then any
sequence of `changeActiveId` calls whose id comes from the rendered rows
(the checkbox callbacks only ever pass a rendered row's own id), together
with `selectAll` and `deselectAll`. -/
inductive ReachesSel (rows : List RowInfo) : List String → Prop where
  | init : ReachesSel rows []
  | toggle {s : List String} (id : String) (b : Bool) :
      ReachesSel rows s → id ∈ rowIds rows →
      ReachesSel rows (changeActiveId s id b)
  | selAllStep {s : List String} :
      ReachesSel rows s → ReachesSel rows (selectAll rows s)
  | deselAllStep {s : List String} :
      ReachesSel rows s → ReachesSel rows (deselectAll s)

lemma changeActiveId_nodup {s : List String} {id : String} {b : Bool}
    (h : s.Nodup) : (changeActiveId s id b).Nodup := by
  cases b with
  | true =>
    by_cases hm : id ∈ s
    · rw [changeActiveId_of_mem_true hm]; exact h
    · rw [changeActiveId_of_not_mem_true hm]
      simp only [List.nodup_append, List.nodup_cons, List.not_mem_nil,
        not_false_iff, List.nodup_nil, and_true, true_and]
      exact ⟨h, fun a ha hmem => hm ((List.mem_singleton.mp hmem) ▸ ha)⟩
  | false =>
    by_cases hm : id ∈ s
    · rw [changeActiveId_of_mem_false hm]; exact h.erase id
    · rw [changeActiveId_of_not_mem_false hm]; exact h

/-- When the rendered row ids are themselves duplicate-free, every
reachable selection state is duplicate-free, so the Nodup hypothesis of
the toggle specification covers all reachable states. -/
lemma reachesSel_nodup {rows : List RowInfo}
    (hrows : (rowIds rows).Nodup) {s : List String}
    (h : ReachesSel rows s) : s.Nodup := by
  induction h with
  | init => exact List.nodup_nil
  | toggle id b hr hid ih => exact changeActiveId_nodup ih
  | selAllStep hr ih => exact hrows
  | deselAllStep hr ih => exact List.nodup_nil

/-- C2 counterexample: with the three rendered rows `x`, `y`, `z` and the
empty (reachable) selection state, toggling the foreign id `"ghost"` on
does change the selection set — `changeActiveId` performs no row-list
check, so the result contains an id outside the rendered rows. -/
theorem changeActiveId_stale_counterexample :
    "ghost" ∉ rowIds exampleRows ∧
    changeActiveId [] "ghost" true = ["ghost"] ∧
    changeActiveId [] "ghost" true ≠ [] ∧
    "ghost" ∈ changeActiveId [] "ghost" true := by
  decide

/-- C2 amended: toggling an absent id off is a no-op (and the update is
total, hence never throws), while the subset invariant — every selected id
is the id of a rendered row — holds for the states reachable when toggles
are invoked only with rendered row ids, as the checkbox callbacks do. -/
theorem selection_subset_invariant (rows : List RowInfo) (s : List String)
    (h : ReachesSel rows s) :
    (∀ x ∈ s, x ∈ rowIds rows) ∧
    (∀ id, id ∉ s → changeActiveId s id false = s) := by
  refine ⟨?_, fun id hid => changeActiveId_of_not_mem_false hid⟩
  induction h with
  | init => intro x hx; cases hx
  | toggle id b hr hid ih =>
    intro x hx
    by_cases hxi : x = id
    · exact hxi ▸ hid
    · exact ih x ((changeActiveId_frame _ id x b hxi).mp hx)
  | selAllStep hr ih => intro x hx; exact hx
  | deselAllStep hr ih => intro x hx; cases hx

/-- Witness for C2 amended: the empty state is reachable for the example
rows, it is a subset of the rendered ids, and toggling any absent id off
leaves it unchanged. -/
theorem selection_subset_invariant_witness :
    ReachesSel exampleRows [] ∧
      ((∀ x ∈ ([] : List String), x ∈ rowIds exampleRows) ∧
        (∀ id, id ∉ ([] : List String) → changeActiveId [] id false = [])) :=
  ⟨ReachesSel.init,
    selection_subset_invariant exampleRows [] ReachesSel.init⟩

/-! Shared modal lifecycle.  Each owner (`TableLauncherRow`, `TaskListItem`)
holds a local `modalOpen` flag (`useState(false)`), sets it true on its
button click, and subscribes to the Bootstrap `hidden.bs.modal` event of
the singleton `#autobidsModal` element with a handler `setModalOpen(false)`.
An owner renders its dialog content (`TarRenameModal` / `TaskLogModal`)
through `ReactDOM.createPortal` into `#autobidsModalContent` exactly when
its own flag is true.  The system state is the list of owner flags. -/

/-- An event of the modal lifecycle: owner `i` clicks its open button
(`setModalOpen(true)` for that owner), or the singleton dialog chrome
emits `hidden.bs.modal`, upon which every subscribed owner runs its
handler `setModalOpen(false)`. -/
inductive MEvent where
  | openOwner (i : Nat)
  | dismiss
deriving DecidableEq, Repr

/-- One step of the modal lifecycle over the list of owner flags. -/
def stepModal (s : List Bool) : MEvent → List Bool
  | MEvent.openOwner i => s.set i true
  | MEvent.dismiss => s.map (fun _ => false)

/-- Run a sequence of modal events from a state. -/
def runModal (s : List Bool) : List MEvent → List Bool
  | [] => s
  | e :: rest => runModal (stepModal s e) rest

/-- Number of dialog contents currently rendered into the shared mount
point `#autobidsModalContent`: each owner renders its portal exactly when
its `modalOpen` flag is true (`modalOpen ? <TarRenameModal/> : null`,
`modalOpen ? <TaskLogModal/> : null`). -/
def mountContents (s : List Bool) : Nat :=
  s.count true

/-- An event list is disciplined when every open event is the first event
or is preceded by a dismissal that has already cleared all flags; the
boolean argument records whether an open is currently allowed. -/
def disciplinedFrom : Bool → List MEvent → Bool
  | _, [] => true
  | ok, MEvent.openOwner _ :: rest => ok && disciplinedFrom false rest
  | _, MEvent.dismiss :: rest => disciplinedFrom true rest

lemma count_true_set_le (s : List Bool) (i : Nat) :
    (s.set i true).count true ≤ s.count true + 1 := by
  induction s generalizing i with
  | nil => simp [List.set]
  | cons a t ih =>
    cases i with
    | zero =>
      simp only [List.set, List.count_cons]
      cases a <;> simp
    | succ n =>
      simp only [List.set, List.count_cons]
      have := ih n
      omega

lemma count_true_map_false (s : List Bool) :
    (s.map (fun _ => false)).count true = 0 := by
  simp [List.map_const', List.count_replicate]

lemma runModal_disciplined_le_one (evs : List MEvent) :
    ∀ (s : List Bool) (ok : Bool), disciplinedFrom ok evs = true →
      (ok = true → s.count true = 0) → s.count true ≤ 1 →
      (runModal s evs).count true ≤ 1 := by
  induction evs with
  | nil => intro s ok _ _ hle; exact hle
  | cons e rest ih =>
    intro s ok hdisc hok hle
    cases e with
    | openOwner i =>
      simp only [disciplinedFrom, Bool.and_eq_true] at hdisc
      have hz : s.count true = 0 := hok hdisc.1
      refine ih (s.set i true) false hdisc.2 (fun h => by cases h) ?_
      have := count_true_set_le s i
      omega
    | dismiss =>
      simp only [disciplinedFrom] at hdisc
      refine ih (s.map (fun _ => false)) true hdisc
        (fun _ => count_true_map_false s) ?_
      rw [count_true_map_false]
      omega

/-- C4 counterexample: from two owners both closed, owner 0 opens and then
owner 1 opens while owner 0's flag is still true; both owners' portals are
then rendered into the shared mount point at once, so the number of
rendered contents is 2, not at most 1. -/
theorem modal_single_content_counterexample :
    runModal [false, false] [MEvent.openOwner 0, MEvent.openOwner 1] =
      [true, true] ∧
    mountContents
      (runModal [false, false] [MEvent.openOwner 0, MEvent.openOwner 1]) =
      2 ∧
    ¬ mountContents
      (runModal [false, false] [MEvent.openOwner 0, MEvent.openOwner 1]) ≤
      1 := by
  decide

/-- C4 amended: every owner whose flag is true renders its content into
the shared mount simultaneously, so at most one owner's content is
rendered at any instant provided each opening happens only after a
dismissal has cleared all previous flags (disciplined event sequences,
starting from all owners closed). -/
theorem modal_single_content_disciplined (n : Nat) (evs : List MEvent)
    (h : disciplinedFrom true evs = true) :
    mountContents (runModal (List.replicate n false) evs) ≤ 1 := by
  have hz : (List.replicate n false).count true = 0 := by
    simp [List.count_replicate]
  exact runModal_disciplined_le_one evs (List.replicate n false) true h
    (fun _ => hz) (by omega)

/-- Witness for C4 amended: two owners, open 0, dismiss, open 1 is a
disciplined sequence and leaves at most one content rendered. -/
theorem modal_single_content_disciplined_witness :
    disciplinedFrom true
      [MEvent.openOwner 0, MEvent.dismiss, MEvent.openOwner 1] = true ∧
    mountContents (runModal (List.replicate 2 false)
      [MEvent.openOwner 0, MEvent.dismiss, MEvent.openOwner 1]) ≤ 1 :=
  ⟨by decide, modal_single_content_disciplined 2
    [MEvent.openOwner 0, MEvent.dismiss, MEvent.openOwner 1] (by decide)⟩

/-- C5: opening owner `a`, then owner `b` without dismissing `a`, then one
global dismissal leaves every subscribed owner's flag false — the state is
all-false, so in particular both `a`'s and `b`'s flags are false; the
two-owner instance is checked concretely. -/
theorem dismiss_fanout (s : List Bool) (a b : Nat) :
    (∀ x ∈ runModal s [MEvent.openOwner a, MEvent.openOwner b,
      MEvent.dismiss], x = false) ∧
    runModal [false, false]
      [MEvent.openOwner 0, MEvent.openOwner 1, MEvent.dismiss] =
      [false, false] := by
  refine ⟨fun x hx => ?_, by decide⟩
  simp only [runModal, stepModal] at hx
  rcases List.mem_map.mp hx with ⟨y, _, hy⟩
  exact hy.symm

/-! Accordion tree builder (`genAccordion` / `genDirItem`, insertion-order
revision).  The input is a directory mapping `{files, dirs}`; `dirs` is an
object whose `Object.entries` we model as an association list, preserving
insertion order. -/

/-- The directory mapping consumed by `genAccordion`: a list of file names
and a mapping from directory name to the same shape. -/
inductive FileTree where
  | mk (files : List String) (dirs : List (String × FileTree))

/-- A rendered accordion entry: `TextItem` (a file leaf with its text) or
`DirItem` (a directory with its text, its `dirId` and its children). -/
inductive Node where
  | textItem (text : String)
  | dirItem (text : String) (dirId : String) (children : List Node)

/-- `dirName.replaceAll("/", "")`: the name with every separator removed. -/
def stripSlash (s : String) : String :=
  String.mk (s.data.filter (fun c => !(c == '/')))

/-- The `dirId` prop computed in `genDirItem`:
`"dir" + dirName.replaceAll("/", "")`. -/
def dirIdOf (dirName : String) : String :=
  "dir" ++ stripSlash dirName

mutual

/-- `genDirItem(dirName, dirContents)`: a `DirItem` whose text is the
directory's name, whose `dirId` is `"dir" + dirName.replaceAll("/", "")`,
and whose children are the direct files as `TextItem`s followed by the
recursively built direct subdirectories. -/
def genDirItem (dirName : String) (dirContents : FileTree) : Node :=
  match dirContents with
  | FileTree.mk files dirs =>
      Node.dirItem dirName (dirIdOf dirName)
        (files.map Node.textItem ++ genDirItems dirs)

/-- `Object.entries(contents.dirs).map(([key, value]) => genDirItem(key,
value))`, in insertion order. -/
def genDirItems : List (String × FileTree) → List Node
  | [] => []
  | (key, value) :: rest => genDirItem key value :: genDirItems rest

end

/-- `genAccordion(fileTree)`: the children of the rendered `Accordion` —
the direct files as `TextItem`s followed by the recursively built direct
subdirectories. -/
def genAccordion (fileTree : FileTree) : List Node :=
  match fileTree with
  | FileTree.mk files dirs => files.map Node.textItem ++ genDirItems dirs

/-- The `dirId` of a rendered node (empty for a file leaf). -/
def nodeDirId : Node → String
  | Node.textItem _ => ""
  | Node.dirItem _ dirId _ => dirId

/-- The spec's example mapping
`{files:["a.txt"], dirs:{"sub":{files:["b.txt"], dirs:{}}}}`. -/
def exampleTree : FileTree :=
  FileTree.mk ["a.txt"] [("sub", FileTree.mk ["b.txt"] [])]

lemma genDirItems_eq_map (dirs : List (String × FileTree)) :
    genDirItems dirs = dirs.map (fun p => genDirItem p.1 p.2) := by
  induction dirs with
  | nil => rfl
  | cons p rest ih => cases p; simp [genDirItems, ih]

/-- C7: the tree builder's output lists the direct files (as file nodes)
followed by the recursively built direct subdirectories, for every
mapping; on the example mapping it yields one file child `a.txt` and one
dir child `sub` containing one file child `b.txt`; and rebuilding twice
from the same input yields identical trees. -/
theorem genAccordion_spec (fs : List String)
    (ds : List (String × FileTree)) :
    genAccordion (FileTree.mk fs ds) =
      fs.map Node.textItem ++ ds.map (fun p => genDirItem p.1 p.2) ∧
    genAccordion exampleTree =
      [Node.textItem "a.txt",
        Node.dirItem "sub" "dirsub" [Node.textItem "b.txt"]] ∧
    genAccordion exampleTree = genAccordion exampleTree := by
  refine ⟨?_, rfl, rfl⟩
  simp [genAccordion, genDirItems_eq_map]

lemma stripSlash_eq_self {s : String} (h : ∀ c ∈ s.data, ¬ c = '/') :
    stripSlash s = s := by
  cases s with
  | mk d =>
    simp only [stripSlash]
    congr 1
    refine List.filter_eq_self.mpr fun a ha => ?_
    simpa using h a ha

lemma nodeDirId_genDirItem (dirName : String) (t : FileTree) :
    nodeDirId (genDirItem dirName t) = dirIdOf dirName := by
  cases t with
  | mk files dirs => rfl

lemma string_append_left_cancel {a b c : String} (h : a ++ b = a ++ c) :
    b = c := by
  have hd : a.data ++ b.data = a.data ++ c.data := by
    have := congrArg String.data h
    simpa [String.data_append] using this
  cases b with
  | mk bd =>
    cases c with
    | mk cd =>
      congr 1
      exact List.append_cancel_left hd

/-- C6 counterexample: the sibling directories named `"ab"` and `"a/b"`
have distinct names but identical derived identifiers (`"dirab"`), because
the id is `"dir"` plus the name with separators removed; moreover a nested
directory `"c"` under `"p"` gets the id `"dirc"`, derived from its own
name only, not from the concatenation of its ancestors' names. -/
theorem dirId_collision_counterexample :
    ("a/b" : String) ≠ "ab" ∧
    dirIdOf "a/b" = dirIdOf "ab" ∧
    genDirItems [("ab", FileTree.mk [] []), ("a/b", FileTree.mk [] [])] =
      [Node.dirItem "ab" "dirab" [], Node.dirItem "a/b" "dirab" []] ∧
    genDirItem "p" (FileTree.mk [] [("c", FileTree.mk [] [])]) =
      Node.dirItem "p" "dirp" [Node.dirItem "c" "dirc" []] :=
  ⟨by decide, rfl, rfl, rfl⟩

/-- C6 amended: each dir node's identifier is derived deterministically
from the node's own name — `"dir"` prepended to the name with all `/`
separators removed — independently of the node's contents; for two
directories whose names contain no separator and differ, the derived
identifiers differ. -/
theorem dirId_amended (n1 n2 : String) (t1 t2 : FileTree)
    (h1 : ∀ c ∈ n1.data, ¬ c = '/') (h2 : ∀ c ∈ n2.data, ¬ c = '/')
    (hne : n1 ≠ n2) :
    nodeDirId (genDirItem n1 t1) = "dir" ++ n1 ∧
    nodeDirId (genDirItem n1 t2) = nodeDirId (genDirItem n1 t1) ∧
    nodeDirId (genDirItem n1 t1) ≠ nodeDirId (genDirItem n2 t2) := by
  have e1 : nodeDirId (genDirItem n1 t1) = "dir" ++ n1 := by
    rw [nodeDirId_genDirItem, dirIdOf, stripSlash_eq_self h1]
  have e2 : nodeDirId (genDirItem n2 t2) = "dir" ++ n2 := by
    rw [nodeDirId_genDirItem, dirIdOf, stripSlash_eq_self h2]
  refine ⟨e1, by rw [nodeDirId_genDirItem, nodeDirId_genDirItem], ?_⟩
  rw [e1, e2]
  intro hcontra
  exact hne (string_append_left_cancel hcontra)

/-- Witness for C6 amended: the separator-free distinct names `"ab"` and
`"cd"` over empty contents. -/
theorem dirId_amended_witness :
    ((∀ c ∈ ("ab" : String).data, ¬ c = '/') ∧
      (∀ c ∈ ("cd" : String).data, ¬ c = '/') ∧ ("ab" : String) ≠ "cd") ∧
    (nodeDirId (genDirItem "ab" (FileTree.mk [] [])) = "dir" ++ "ab" ∧
      nodeDirId (genDirItem "ab" (FileTree.mk [] [])) =
        nodeDirId (genDirItem "ab" (FileTree.mk [] [])) ∧
      nodeDirId (genDirItem "ab" (FileTree.mk [] [])) ≠
        nodeDirId (genDirItem "cd" (FileTree.mk [] []))) :=
  ⟨⟨by decide, by decide, by decide⟩,
    dirId_amended "ab" "cd" (FileTree.mk [] []) (FileTree.mk [] [])
      (by decide) (by decide) (by decide)⟩

/-! Render shapes.  `TableLauncherRow` renders a checkbox (name
`tar_files`, checked from `isActive`), a rename button with
`disabled={!mutable}`, the date cell `{date || "None"}`, and a delete
anchor `<a href={deleteUrl} role="button">` that carries no disabled
attribute.  `TableLauncher` wraps the rows in a form posting to
`cfmm2tarUrl` with a submit input `disabled={!mutable}`. -/

/-- JavaScript truthiness test `!x` for a nullable string: true exactly
for `null`/`undefined` and the empty string. -/
def jsFalsyStr : Option String → Bool
  | none => true
  | some s => s == ""

/-- The observable controls of one rendered `TableLauncherRow`. -/
structure RowRender where
  checkboxName : String
  checkboxChecked : Bool
  dateText : String
  renameDisabled : Bool
  deleteIsActiveLink : Bool
  deleteHref : String
deriving DecidableEq, Repr

/-- Render one `TableLauncherRow` from its props. -/
def renderRow (row : RowInfo) (isActive : Bool) (mutable : Bool) :
    RowRender :=
  { checkboxName := "tar_files"
    checkboxChecked := isActive
    dateText := match row.date with
      | some d => if d == "" then "None" else d
      | none => "None"
    renameDisabled := !mutable
    deleteIsActiveLink := true
    deleteHref := row.deleteUrl }

/-- The observable controls of the rendered `TableLauncher` form. -/
structure TableRender where
  formAction : String
  rows : List RowRender
  submitDisabled : Bool
deriving DecidableEq, Repr

/-- Render the `TableLauncher` form from its props and selection state. -/
def renderTable (rowInfo : List RowInfo) (cfmm2tarUrl : String)
    (mutable : Bool) (activeIds : List String) : TableRender :=
  { formAction := cfmm2tarUrl
    rows := rowInfo.map
      (fun child => renderRow child (activeIds.contains child.id) mutable)
    submitDisabled := !mutable }

/-- C8: with `mutable = false` every row's rename control and the table's
bulk-submit control are disabled while the delete link stays an active
link to the supplied URL; with `mutable = true` all three are active. -/
theorem mutable_gating (row : RowInfo) (rows : List RowInfo) (url : String)
    (ids : List String) (act : Bool) :
    (renderRow row act false).renameDisabled = true ∧
    (renderTable rows url false ids).submitDisabled = true ∧
    (renderRow row act false).deleteIsActiveLink = true ∧
    (renderRow row act false).deleteHref = row.deleteUrl ∧
    (renderRow row act true).renameDisabled = false ∧
    (renderTable rows url true ids).submitDisabled = false ∧
    (renderRow row act true).deleteIsActiveLink = true ∧
    (renderRow row act true).deleteHref = row.deleteUrl ∧
    (∀ rr ∈ (renderTable rows url false ids).rows,
      rr.renameDisabled = true ∧ rr.deleteIsActiveLink = true) := by
  refine ⟨rfl, rfl, rfl, rfl, rfl, rfl, rfl, rfl, fun rr hrr => ?_⟩
  rcases List.mem_map.mp hrr with ⟨child, _, hchild⟩
  rw [← hchild]
  exact ⟨rfl, rfl⟩

/-! Job rows.  `TaskListItem` renders start/end/status cells and a
"View log" button with `disabled={!log}`; when its `modalOpen` flag is
true it renders `TaskLogModal`, whose body is `<pre>{log}</pre>` inside
the shared mount point. -/

/-- The observable parts of one rendered `TaskListItem` (with the content
it portals into the mount when its flag is on). -/
structure TaskItemRender where
  startText : String
  endText : String
  completeText : String
  viewLogDisabled : Bool
  modalLogContent : Option String
deriving DecidableEq, Repr

/-- Render one `TaskListItem` from its props and its `modalOpen` flag. -/
def renderTaskItem (start endTime complete : String) (log : Option String)
    (modalOpen : Bool) : TaskItemRender :=
  { startText := start
    endText := endTime
    completeText := complete
    viewLogDisabled := jsFalsyStr log
    modalLogContent := if modalOpen then log else none }

/-- C9 counterexample: a job whose log is the empty string — non-null —
still renders its "View log" control disabled, because the control uses
JavaScript truthiness (`disabled={!log}`) and `""` is falsy. -/
theorem viewlog_empty_counterexample :
    (renderTaskItem "s" "e" "c" (some "") false).viewLogDisabled = true ∧
    some "" ≠ (none : Option String) := by
  decide

/-- C9 amended: the "View log" control is disabled exactly when the log is
null or the empty string; for a non-null, non-empty log it is enabled and
the opened dialog displays exactly the log string. -/
theorem viewlog_gating (start endTime complete : String)
    (log : Option String) (s : String) (hlog : log = some s)
    (hne : s ≠ "") :
    (renderTaskItem start endTime complete log false).viewLogDisabled =
      false ∧
    (renderTaskItem start endTime complete log true).modalLogContent =
      some s ∧
    (renderTaskItem start endTime complete none false).viewLogDisabled =
      true ∧
    (∀ l : Option String,
      (renderTaskItem start endTime complete l false).viewLogDisabled =
        true ↔ (l = none ∨ l = some "")) := by
  subst hlog
  refine ⟨?_, rfl, rfl, fun l => ?_⟩
  · simp [renderTaskItem, jsFalsyStr, hne]
  · cases l with
    | none => simp [renderTaskItem, jsFalsyStr]
    | some t => simp [renderTaskItem, jsFalsyStr]

/-- Witness for C9 amended: the log `"hello"` is non-null and non-empty,
and the control is enabled with the dialog showing exactly `"hello"`. -/
theorem viewlog_gating_witness :
    ((some "hello" : Option String) = some "hello" ∧
      ("hello" : String) ≠ "") ∧
    ((renderTaskItem "s" "e" "c" (some "hello") false).viewLogDisabled =
        false ∧
      (renderTaskItem "s" "e" "c" (some "hello") true).modalLogContent =
        some "hello" ∧
      (renderTaskItem "s" "e" "c" none false).viewLogDisabled = true ∧
      (∀ l : Option String,
        (renderTaskItem "s" "e" "c" l false).viewLogDisabled = true ↔
          (l = none ∨ l = some ""))) :=
  ⟨⟨rfl, by decide⟩,
    viewlog_gating "s" "e" "c" (some "hello") "hello" rfl (by decide)⟩

end Autobids
